import Mathlib

/-!
The error-reporting hook and the trace-context fields of apm-go-logger.

A shallow embedding of `hook.go` and `fields.go`.

* The two libraries the package calls into (the logger and the tracing
  client) are modelled at their interface: the values that cross it are
  kept as data, and each call that has an effect on a tracer is appended
  to that tracer's chronological list of operations.
* `apmgologger.Hook.Fire`, `Hook.Levels`, `Hook.getFieldValue`,
  `Hook.getError` and `apmgologger.TraceContext` are translated from the
  source, statement by statement.
-/

set_option autoImplicit false

/-! ## Values crossing the library boundary -/

namespace time

/-- A `time.Duration`: a signed count of nanoseconds. -/
abbrev Duration := Int

/-- A `time.Time`, as nanoseconds on the wall clock. -/
abbrev Time := Int

/-- The constant `time.Second`. -/
def Second : Duration := 1000000000

end time

namespace apm

/-- An `apm.TraceID`, a 16-byte array, given by the number its bytes spell. -/
structure TraceID where
  val : Fin (2 ^ 128)
  deriving DecidableEq

/-- An `apm.SpanID`, an 8-byte array, given by the number its bytes spell. -/
structure SpanID where
  val : Fin (2 ^ 64)
  deriving DecidableEq

/-- The zero value of `apm.TraceID` (all bytes zero). -/
def TraceID.zero : TraceID := ⟨⟨0, by norm_num⟩⟩

/-- The zero value of `apm.SpanID` (all bytes zero). -/
def SpanID.zero : SpanID := ⟨⟨0, by norm_num⟩⟩

/-- The trace identifier whose bytes spell `n` (reduced to 16 bytes). -/
def TraceID.ofNat (n : Nat) : TraceID := ⟨⟨n % 2 ^ 128, Nat.mod_lt _ (by norm_num)⟩⟩

/-- The span identifier whose bytes spell `n` (reduced to 8 bytes). -/
def SpanID.ofNat (n : Nat) : SpanID := ⟨⟨n % 2 ^ 64, Nat.mod_lt _ (by norm_num)⟩⟩

end apm

/-- A non-nil Go value implementing the `error` interface, identified by
its `Error()` text. -/
structure GoError where
  text : String
  deriving DecidableEq

/-- A Go `interface{}` value, by dynamic type: the cases are the dynamic
types the hook tells apart (`apm.TraceID`, `apm.SpanID`, implementors of
`error`) and representatives of all the others. -/
inductive Value where
  | nil
  | str (s : String)
  | int (n : Int)
  | bool (b : Bool)
  | traceID (t : apm.TraceID)
  | spanID (s : apm.SpanID)
  | err (e : GoError)
  deriving DecidableEq

namespace Value

/-- The type assertion `v.(apm.TraceID)` in its comma-ok form. -/
def asTraceID : Value → Option apm.TraceID
  | traceID t => some t
  | _ => none

/-- The type assertion `v.(apm.SpanID)` in its comma-ok form. -/
def asSpanID : Value → Option apm.SpanID
  | spanID s => some s
  | _ => none

/-- The type assertion `v.(error)` in its comma-ok form. -/
def asError : Value → Option GoError
  | err e => some e
  | _ => none

end Value

namespace logger

/-- The severity levels of the logging library. -/
inductive Level where
  | PRINT | PANIC | FATAL | ERROR | WARNING | INFO | DEBUG | TRACE
  deriving DecidableEq

/-- A `logger.Field`. -/
structure Field where
  Key : String
  Value : Value
  deriving DecidableEq

/-- The part of `logger.Config` the hook reads. -/
structure Config where
  Fields : List Field
  deriving DecidableEq

/-- A `logger.Entry`, the record handed to a hook. -/
structure Entry where
  Config : Config
  Time : time.Time
  Level : Level
  Message : String
  Args : List Value
  deriving DecidableEq

end logger

/-! ## The tracing client, at its interface -/

namespace apm

/-- An `apm.ErrorLogRecord`, with the fields the hook fills in. A nil
`Error` is `none`. -/
structure ErrorLogRecord where
  Message : String
  Level : String
  Error : Option GoError
  deriving DecidableEq

/-- An `apm.Error`, the event under construction: the log record it
stores, the exported fields the hook assigns, and the skip count
handed to `SetStacktrace` (`none` while no stack trace was captured). -/
structure Error where
  log : ErrorLogRecord
  Handled : Bool
  Timestamp : time.Time
  stacktraceSkip : Option Nat
  TraceID : TraceID
  TransactionID : SpanID
  ParentID : SpanID
  deriving DecidableEq

/-- A call on a tracer that the hook can make and that leaves a trace. -/
inductive Op where
  | newErrorLog (r : ErrorLogRecord)
  | send (e : Error)
  | flush (timeout : time.Duration)
  deriving DecidableEq

/-- An `apm.Tracer`: whether it is recording, and the calls made on it so
far, oldest first. -/
structure Tracer where
  recording : Bool
  ops : List Op
  deriving DecidableEq

/-- The events submitted to a tracer, oldest first. -/
def Tracer.sent (t : Tracer) : List Error :=
  t.ops.filterMap fun o => match o with
    | Op.send e => some e
    | _ => none

/-- The deadlines of the flushes performed on a tracer, oldest first. -/
def Tracer.flushes (t : Tracer) : List time.Duration :=
  t.ops.filterMap fun o => match o with
    | Op.flush d => some d
    | _ => none

/-- The process as the hook sees it: the tracers by address, the address
`apm.DefaultTracer()` returns, and the wall clock. -/
structure World where
  tracers : Nat → Tracer
  defaultTracer : Nat
  now : time.Time

/-- The call `apm.DefaultTracer()`. -/
def DefaultTracer (w : World) : Nat := w.defaultTracer

/-- The call `tracer.Recording()`. -/
def World.Recording (w : World) (tracer : Nat) : Bool := (w.tracers tracer).recording

/-- Append one call to the list of a tracer. -/
def World.record (w : World) (tracer : Nat) (o : Op) : World :=
  let t := w.tracers tracer
  { w with tracers := Function.update w.tracers tracer { t with ops := t.ops ++ [o] } }

/-- Append several calls, oldest first, to the list of a tracer. -/
def World.append (w : World) (tracer : Nat) (os : List Op) : World :=
  let t := w.tracers tracer
  { w with tracers := Function.update w.tracers tracer { t with ops := t.ops ++ os } }

/-- The longest string, in characters, the tracing client keeps. -/
def stringLengthLimit : Nat := 1024

/-- The tracing client cuts a string to its first `stringLengthLimit`
characters. -/
def truncateString (s : String) : String := String.mk (s.data.take stringLengthLimit)

/-- The log record the tracing client stores for a record handed to
`NewErrorLog`: message and level are cut to the length limit, and an empty
message becomes "[EMPTY]". -/
def storedLog (r : ErrorLogRecord) : ErrorLogRecord :=
  { Message := if truncateString r.Message = "" then "[EMPTY]" else truncateString r.Message,
    Level := truncateString r.Level,
    Error := r.Error }

/-- The call `tracer.NewErrorLog(r)`: a fresh event carrying the stored
form of `r`, stamped with the current time, not handled, without stack
trace and with zero identifiers. -/
def World.NewErrorLog (w : World) (tracer : Nat) (r : ErrorLogRecord) : World × Error :=
  (w.record tracer (Op.newErrorLog r),
   { log := storedLog r, Handled := false, Timestamp := w.now, stacktraceSkip := none,
     TraceID := TraceID.zero, TransactionID := SpanID.zero, ParentID := SpanID.zero })

/-- The call `e.SetStacktrace(skip)`. -/
def Error.SetStacktrace (e : Error) (skip : Nat) : Error :=
  { e with stacktraceSkip := some skip }

/-- The call `e.Send()` on an event of the tracer at `tracer`. -/
def World.Send (w : World) (tracer : Nat) (e : Error) : World :=
  w.record tracer (Op.send e)

/-- The call `tracer.Flush(ctx.Done())` under a context that times out
after `timeout`. -/
def World.Flush (w : World) (tracer : Nat) (timeout : time.Duration) : World :=
  w.record tracer (Op.flush timeout)

/-- An `apm.TraceContext`, with the two components read by the package. -/
structure TraceContext where
  Trace : TraceID
  Span : SpanID
  deriving DecidableEq

/-- An `apm.Transaction`, by what `tx.TraceContext()` returns. -/
structure Transaction where
  TraceContext : TraceContext
  deriving DecidableEq

/-- An `apm.Span`, by what `span.TraceContext()` returns. -/
structure Span where
  TraceContext : TraceContext
  deriving DecidableEq

end apm

namespace context

/-- A `context.Context`, by the two values the tracing client stores in
it: the transaction and the span, each possibly absent. -/
structure Context where
  transaction : Option apm.Transaction
  span : Option apm.Span
  deriving DecidableEq

end context

namespace apm

/-- The call `apm.TransactionFromContext(ctx)`; nil is `none`. -/
def TransactionFromContext (ctx : context.Context) : Option Transaction := ctx.transaction

/-- The call `apm.SpanFromContext(ctx)`; nil is `none`. -/
def SpanFromContext (ctx : context.Context) : Option Span := ctx.span

end apm

/-! ## The package: `fields.go` and `hook.go` -/

namespace apmgologger

/-- The field key for the trace ID. -/
def FieldKeyTraceID : String := "trace.id"

/-- The field key for the transaction ID. -/
def FieldKeyTransactionID : String := "transaction.id"

/-- The field key for the span ID. -/
def FieldKeySpanID : String := "span.id"

/-- Function `TraceContext` of `fields.go`: the trace context of the transaction
and span contained in `ctx`, if any. The nil slice is the empty list. -/
def TraceContext (ctx : context.Context) : List logger.Field :=
  match apm.TransactionFromContext ctx with
  | none => []
  | some tx =>
    let traceContext := tx.TraceContext
    let fields : List logger.Field := [
      { Key := FieldKeyTraceID, Value := Value.traceID traceContext.Trace },
      { Key := FieldKeyTransactionID, Value := Value.spanID traceContext.Span }]
    match apm.SpanFromContext ctx with
    | some span =>
      fields ++ [{ Key := FieldKeySpanID, Value := Value.spanID span.TraceContext.Span }]
    | none => fields

/-- The log levels reported when `Hook.LogLevels` is not set. -/
def DefaultLogLevels : List logger.Level :=
  [logger.Level.PANIC, logger.Level.FATAL, logger.Level.ERROR]

/-- The default value for `Hook.FatalFlushTimeout`. -/
def DefaultFatalFlushTimeout : time.Duration := 5 * time.Second

/-- The `Hook` struct. `Tracer` is a pointer (an address, `none` for
nil); `LogLevels` is a slice whose nil value, `none`, the code tells
apart from an empty one. -/
structure Hook where
  Tracer : Option Nat
  LogLevels : Option (List logger.Level)
  FatalFlushTimeout : time.Duration

/-- Method `Hook.tracer`: the configured tracer, or the default one. -/
def Hook.tracer (h : Hook) (w : apm.World) : Nat :=
  match h.Tracer with
  | some tracer => tracer
  | none => apm.DefaultTracer w

/-- Method `Hook.Levels`. -/
def Hook.Levels (h : Hook) : List logger.Level :=
  match h.LogLevels with
  | some levels => levels
  | none => DefaultLogLevels

/-- Method `Hook.getFieldValue`: the value of the first field with the key, nil
when there is none. -/
def Hook.getFieldValue (h : Hook) : List logger.Field → String → Value
  | [], _ => Value.nil
  | field :: fields, key =>
    if field.Key = key then field.Value else h.getFieldValue fields key

/-- Method `Hook.getError`: the first argument that is an error, nil (`none`)
when there is none. -/
def Hook.getError (h : Hook) : List Value → Option GoError
  | [] => none
  | arg :: args =>
    match arg.asError with
    | some err => some err
    | none => h.getError args

/-- Method `Hook.Fire`: report the log entry as an error. `levelString` is the
`String` method of `logger.Level`. The result is the process afterwards
and the returned error (`none` for nil). -/
def Hook.Fire (levelString : logger.Level → String) (h : Hook) (w : apm.World)
    (entry : logger.Entry) : apm.World × Option GoError :=
  let tracer := h.tracer w
  if !(w.Recording tracer) then (w, none) else
  let err := h.getError entry.Args
  let (w, errlog) := w.NewErrorLog tracer
    { Message := entry.Message, Level := levelString entry.Level, Error := err }
  let errlog := { errlog with Handled := true }
  let errlog := { errlog with Timestamp := entry.Time }
  let stacktrace := 1
  let stacktrace := if err = none then stacktrace + 1 else stacktrace
  let errlog := errlog.SetStacktrace stacktrace
  let errlog := match (h.getFieldValue entry.Config.Fields FieldKeyTraceID).asTraceID with
    | some traceID => { errlog with TraceID := traceID }
    | none => errlog
  let errlog := match (h.getFieldValue entry.Config.Fields FieldKeyTransactionID).asSpanID with
    | some transactionID =>
      { errlog with TransactionID := transactionID, ParentID := transactionID }
    | none => errlog
  let errlog := match (h.getFieldValue entry.Config.Fields FieldKeySpanID).asSpanID with
    | some spanID => { errlog with ParentID := spanID }
    | none => errlog
  let w := w.Send tracer errlog
  let w :=
    if entry.Level = logger.Level.FATAL then
      let flushTimeout := h.FatalFlushTimeout
      let flushTimeout := if flushTimeout = 0 then DefaultFatalFlushTimeout else flushTimeout
      if flushTimeout ≥ 0 then w.Flush tracer flushTimeout else w
    else w
  (w, none)

end apmgologger

/-! ## Vocabulary of the properties -/

namespace apmgologger

/-- The attached fields hold the value `v` under the key `k`: the first
field with key `k`, the one a lookup by key yields, carries `v`. When no
key is repeated this is membership of the pair. -/
def Holds (fields : List logger.Field) (k : String) (v : Value) : Prop :=
  fields.find? (fun f => decide (f.Key = k)) = some { Key := k, Value := v }

instance (fields : List logger.Field) (k : String) (v : Value) :
    Decidable (Holds fields k v) := by
  unfold Holds
  infer_instance

/-- The event `Fire` builds for an entry, field by field. -/
def reported (levelString : logger.Level → String) (h : Hook) (entry : logger.Entry) :
    apm.Error :=
  { log := apm.storedLog { Message := entry.Message, Level := levelString entry.Level,
                           Error := h.getError entry.Args },
    Handled := true,
    Timestamp := entry.Time,
    stacktraceSkip := some (if h.getError entry.Args = none then 2 else 1),
    TraceID := ((h.getFieldValue entry.Config.Fields FieldKeyTraceID).asTraceID).getD
      apm.TraceID.zero,
    TransactionID := ((h.getFieldValue entry.Config.Fields FieldKeyTransactionID).asSpanID).getD
      apm.SpanID.zero,
    ParentID :=
      match (h.getFieldValue entry.Config.Fields FieldKeySpanID).asSpanID with
      | some spanID => spanID
      | none => ((h.getFieldValue entry.Config.Fields FieldKeyTransactionID).asSpanID).getD
          apm.SpanID.zero }

/-- The flushes `Fire` performs for an entry: none, or one. -/
def flushOps (h : Hook) (entry : logger.Entry) : List apm.Op :=
  if entry.Level = logger.Level.FATAL ∧ 0 ≤ h.FatalFlushTimeout then
    [apm.Op.flush (if h.FatalFlushTimeout = 0 then DefaultFatalFlushTimeout
      else h.FatalFlushTimeout)]
  else []

/-! ### Sample inputs -/

/-- A level-naming function: the upper-case names of the levels. -/
def levelName : logger.Level → String
  | logger.Level.PRINT => "PRINT"
  | logger.Level.PANIC => "PANIC"
  | logger.Level.FATAL => "FATAL"
  | logger.Level.ERROR => "ERROR"
  | logger.Level.WARNING => "WARNING"
  | logger.Level.INFO => "INFO"
  | logger.Level.DEBUG => "DEBUG"
  | logger.Level.TRACE => "TRACE"

/-- A process whose tracers are all fresh; those at even addresses are
recording, those at odd addresses are closed. The default tracer is at 0. -/
def sampleWorld : apm.World :=
  { tracers := fun a => { recording := a % 2 == 0, ops := [] },
    defaultTracer := 0,
    now := 1000 }

/-- A hook on the default tracer with the default settings. -/
def defaultHook : Hook :=
  { Tracer := none, LogLevels := none, FatalFlushTimeout := 0 }

/-- A hook on the closed tracer at address 1. -/
def closedHook : Hook :=
  { Tracer := some 1, LogLevels := none, FatalFlushTimeout := 0 }

/-- An entry at a level, with fields and arguments, logged at time 42
with the message "boom". -/
def sampleEntry (level : logger.Level) (fields : List logger.Field) (args : List Value) :
    logger.Entry :=
  { Config := { Fields := fields }, Time := 42, Level := level, Message := "boom",
    Args := args }

/-- An ERROR entry without fields or arguments, logged at time 42 with
the given message. -/
def messageEntry (message : String) : logger.Entry :=
  { Config := { Fields := [] }, Time := 42, Level := logger.Level.ERROR,
    Message := message, Args := [] }

/-- A message of 1025 characters. -/
def longMessage : String := String.mk (List.replicate 1025 'a')

/-- Fields carrying trace id 9, transaction id 7 and span id 5. -/
def tracedFields : List logger.Field :=
  [{ Key := "trace.id", Value := Value.traceID (apm.TraceID.ofNat 9) },
   { Key := "transaction.id", Value := Value.spanID (apm.SpanID.ofNat 7) },
   { Key := "span.id", Value := Value.spanID (apm.SpanID.ofNat 5) }]

/-- A transaction with trace id 9 and id 7. -/
def sampleTransaction : apm.Transaction :=
  { TraceContext := { Trace := apm.TraceID.ofNat 9, Span := apm.SpanID.ofNat 7 } }

/-- A span of that transaction, with id 5. -/
def sampleSpan : apm.Span :=
  { TraceContext := { Trace := apm.TraceID.ofNat 9, Span := apm.SpanID.ofNat 5 } }

/-- A context carrying the transaction and the span. -/
def ctxTransactionSpan : context.Context :=
  { transaction := some sampleTransaction, span := some sampleSpan }

/-- A context carrying the span and no transaction. -/
def ctxSpanOnly : context.Context :=
  { transaction := none, span := some sampleSpan }

end apmgologger

/-! ## What one call of `Fire` does to the process -/

namespace apm

theorem World.append_tracers_self (w : World) (a : Nat) (os : List Op) :
    (w.append a os).tracers a =
      { recording := (w.tracers a).recording, ops := (w.tracers a).ops ++ os } := by
  simp [World.append]

theorem World.append_tracers_other (w : World) (a b : Nat) (os : List Op) (hb : b ≠ a) :
    (w.append a os).tracers b = w.tracers b := by
  simp [World.append, Function.update_noteq hb]

end apm

namespace apmgologger

theorem Fire_of_not_recording (levelString : logger.Level → String) (h : Hook)
    (w : apm.World) (entry : logger.Entry)
    (hrec : w.Recording (h.tracer w) = false) :
    h.Fire levelString w entry = (w, none) := by
  simp [Hook.Fire, hrec]

theorem Fire_of_recording (levelString : logger.Level → String) (h : Hook)
    (w : apm.World) (entry : logger.Entry)
    (hrec : w.Recording (h.tracer w) = true) :
    h.Fire levelString w entry =
      (w.append (h.tracer w)
        (apm.Op.newErrorLog { Message := entry.Message,
                              Level := levelString entry.Level,
                              Error := h.getError entry.Args } ::
         apm.Op.send (reported levelString h entry) :: flushOps h entry),
       none) := by
  unfold Hook.Fire reported flushOps apm.World.append
  simp only [hrec, Bool.not_true, Bool.false_eq_true, if_false, apm.World.NewErrorLog,
    apm.World.Send, apm.World.Flush, apm.World.record, apm.Error.SetStacktrace,
    Function.update_same, Function.update_idem]
  rcases hA : (h.getFieldValue entry.Config.Fields FieldKeyTraceID).asTraceID with _ | a <;>
  rcases hB : (h.getFieldValue entry.Config.Fields FieldKeyTransactionID).asSpanID
    with _ | b <;>
  rcases hC : (h.getFieldValue entry.Config.Fields FieldKeySpanID).asSpanID with _ | c <;>
  rcases hE : h.getError entry.Args with _ | e <;>
  by_cases hL : entry.Level = logger.Level.FATAL <;>
  by_cases h0 : h.FatalFlushTimeout = 0 <;>
  by_cases hneg : 0 ≤ h.FatalFlushTimeout <;>
  simp [hL, h0, hneg, DefaultFatalFlushTimeout, time.Second]

theorem sent_flushOps (h : Hook) (entry : logger.Entry) :
    (flushOps h entry).filterMap (fun o => match o with
      | apm.Op.send e => some e
      | _ => none) = [] := by
  unfold flushOps
  split <;> simp

/-- On a recording tracer `Fire` returns nil and submits one event, the
one described by `reported`. -/
theorem Fire_sent (levelString : logger.Level → String) (h : Hook)
    (w : apm.World) (entry : logger.Entry)
    (hrec : w.Recording (h.tracer w) = true) :
    (h.Fire levelString w entry).2 = none ∧
    ((h.Fire levelString w entry).1.tracers (h.tracer w)).sent =
      (w.tracers (h.tracer w)).sent ++ [reported levelString h entry] := by
  rw [Fire_of_recording levelString h w entry hrec]
  refine ⟨rfl, ?_⟩
  simp only [apm.World.append_tracers_self, apm.Tracer.sent, List.filterMap_append,
    List.filterMap_cons, sent_flushOps, List.append_nil]

theorem getFieldValue_eq_find (h : Hook) (fields : List logger.Field) (k : String) :
    h.getFieldValue fields k =
      match fields.find? (fun f => decide (f.Key = k)) with
      | some f => f.Value
      | none => Value.nil := by
  induction fields with
  | nil => simp [Hook.getFieldValue]
  | cons f fs ih =>
    by_cases hk : f.Key = k
    · simp [Hook.getFieldValue, hk]
    · simp [Hook.getFieldValue, hk, ih]

theorem getFieldValue_of_holds (h : Hook) (fields : List logger.Field) (k : String)
    (v : Value) (hv : Holds fields k v) : h.getFieldValue fields k = v := by
  rw [getFieldValue_eq_find, hv]

theorem holds_of_getFieldValue (h : Hook) (fields : List logger.Field) (k : String)
    (v : Value) (hv : h.getFieldValue fields k = v) (hnil : v ≠ Value.nil) :
    Holds fields k v := by
  rw [getFieldValue_eq_find] at hv
  unfold Holds
  cases hf : fields.find? (fun f => decide (f.Key = k)) with
  | none => rw [hf] at hv; exact absurd hv.symm hnil
  | some f =>
    rw [hf] at hv
    have hk := List.find?_some hf
    simp only [decide_eq_true_eq] at hk
    cases f
    simp_all

/-- When no key is repeated among the fields, they hold `v` under `k`
exactly when the pair of `k` and `v` is one of them. -/
theorem holds_iff_mem_of_nodup (fields : List logger.Field) (k : String) (v : Value)
    (hnodup : (fields.map logger.Field.Key).Nodup) :
    Holds fields k v ↔ ({ Key := k, Value := v } : logger.Field) ∈ fields := by
  constructor
  · intro hv
    exact List.mem_of_find?_eq_some hv
  · intro hmem
    unfold Holds
    induction fields with
    | nil => cases hmem
    | cons f fs ih =>
      rw [List.map_cons, List.nodup_cons] at hnodup
      by_cases hk : f.Key = k
      · rcases List.mem_cons.1 hmem with heq | hin
        · simp [← heq]
        · exact absurd (hk ▸ List.mem_map_of_mem logger.Field.Key hin) hnodup.1
      · have hin : ({ Key := k, Value := v } : logger.Field) ∈ fs := by
          rcases List.mem_cons.1 hmem with heq | hin
          · exact absurd (by rw [← heq]) hk
          · exact hin
        simp only [List.find?_cons, hk, decide_False]
        exact ih hnodup.2 hin

theorem getError_eq_head (h : Hook) (args : List Value) :
    h.getError args = (args.filterMap Value.asError).head? := by
  induction args with
  | nil => rfl
  | cons a as ih =>
    cases hA : a.asError with
    | none => simp [Hook.getError, hA, ih]
    | some e => simp [Hook.getError, hA]

theorem getError_eq_none_iff (h : Hook) (args : List Value) :
    h.getError args = none ↔ ∀ e, Value.err e ∉ args := by
  induction args with
  | nil => simp [Hook.getError]
  | cons a as ih =>
    cases a with
    | err e =>
      simp only [Hook.getError, Value.asError]
      constructor
      · intro hc
        cases hc
      · intro hc
        exact absurd (List.mem_cons_self _ _) (hc e)
    | _ => simp [Hook.getError, Value.asError, ih]

end apmgologger

/-! ## The trace-context fields -/

namespace apmgologger

/-- C3: for every context with no active transaction `TraceContext`
returns the empty sequence of fields, whether or not the context carries
an active span. -/
theorem TraceContext_no_transaction (ctx : context.Context)
    (htx : ctx.transaction = none) : TraceContext ctx = [] := by
  simp [TraceContext, apm.TransactionFromContext, htx]

theorem TraceContext_no_transaction_witness :
    ctxSpanOnly.transaction = none ∧ TraceContext ctxSpanOnly = [] :=
  ⟨rfl, TraceContext_no_transaction ctxSpanOnly rfl⟩

/-- C4: for every context with an active transaction `TraceContext`
returns the field "trace.id" holding the trace component of the
transaction's trace context, then the field "transaction.id" holding its
span component, and nothing else when no span is active; with an active
span the result is that two-field sequence followed by the one field
"span.id" holding the span component of the span's trace context. Each
reserved key occurs at most once, and "span.id" occurs only together with
"trace.id" and "transaction.id". -/
theorem TraceContext_with_transaction (ctx : context.Context) (tx : apm.Transaction)
    (htx : ctx.transaction = some tx) :
    (ctx.span = none →
      TraceContext ctx =
        [{ Key := "trace.id", Value := Value.traceID tx.TraceContext.Trace },
         { Key := "transaction.id", Value := Value.spanID tx.TraceContext.Span }]) ∧
    (∀ span, ctx.span = some span →
      TraceContext ctx =
        TraceContext { transaction := some tx, span := none } ++
          [{ Key := "span.id", Value := Value.spanID span.TraceContext.Span }] ∧
      TraceContext ctx =
        [{ Key := "trace.id", Value := Value.traceID tx.TraceContext.Trace },
         { Key := "transaction.id", Value := Value.spanID tx.TraceContext.Span },
         { Key := "span.id", Value := Value.spanID span.TraceContext.Span }]) ∧
    (∀ k, k ∈ ["trace.id", "transaction.id", "span.id"] →
      ((TraceContext ctx).map logger.Field.Key).count k ≤ 1) ∧
    ("span.id" ∈ (TraceContext ctx).map logger.Field.Key →
      "trace.id" ∈ (TraceContext ctx).map logger.Field.Key ∧
      "transaction.id" ∈ (TraceContext ctx).map logger.Field.Key) := by
  refine ⟨?_, ?_, ?_, ?_⟩
  · intro hs
    simp [TraceContext, apm.TransactionFromContext, apm.SpanFromContext, htx, hs,
      FieldKeyTraceID, FieldKeyTransactionID]
  · intro span hs
    simp [TraceContext, apm.TransactionFromContext, apm.SpanFromContext, htx, hs,
      FieldKeyTraceID, FieldKeyTransactionID, FieldKeySpanID]
  · intro k hk
    cases hs : ctx.span <;>
    simp only [TraceContext, apm.TransactionFromContext, apm.SpanFromContext, htx, hs,
      FieldKeyTraceID, FieldKeyTransactionID, FieldKeySpanID, List.map, List.cons_append,
      List.nil_append] <;>
    simp only [List.mem_cons, List.mem_singleton, List.not_mem_nil, or_false] at hk <;>
    rcases hk with rfl | rfl | rfl <;> decide
  · intro _
    cases hs : ctx.span <;>
    simp [TraceContext, apm.TransactionFromContext, apm.SpanFromContext, htx, hs,
      FieldKeyTraceID, FieldKeyTransactionID, FieldKeySpanID]

theorem TraceContext_with_transaction_witness :
    ctxTransactionSpan.transaction = some sampleTransaction ∧
    ((ctxTransactionSpan.span = none →
      TraceContext ctxTransactionSpan =
        [{ Key := "trace.id", Value := Value.traceID sampleTransaction.TraceContext.Trace },
         { Key := "transaction.id",
           Value := Value.spanID sampleTransaction.TraceContext.Span }]) ∧
    (∀ span, ctxTransactionSpan.span = some span →
      TraceContext ctxTransactionSpan =
        TraceContext { transaction := some sampleTransaction, span := none } ++
          [{ Key := "span.id", Value := Value.spanID span.TraceContext.Span }] ∧
      TraceContext ctxTransactionSpan =
        [{ Key := "trace.id", Value := Value.traceID sampleTransaction.TraceContext.Trace },
         { Key := "transaction.id",
           Value := Value.spanID sampleTransaction.TraceContext.Span },
         { Key := "span.id", Value := Value.spanID span.TraceContext.Span }]) ∧
    (∀ k, k ∈ ["trace.id", "transaction.id", "span.id"] →
      ((TraceContext ctxTransactionSpan).map logger.Field.Key).count k ≤ 1) ∧
    ("span.id" ∈ (TraceContext ctxTransactionSpan).map logger.Field.Key →
      "trace.id" ∈ (TraceContext ctxTransactionSpan).map logger.Field.Key ∧
      "transaction.id" ∈ (TraceContext ctxTransactionSpan).map logger.Field.Key)) :=
  ⟨rfl, TraceContext_with_transaction ctxTransactionSpan sampleTransaction rfl⟩

/-! ## The hook -/

/-- C7: for every hook, `Levels` returns the configured `LogLevels`
unchanged whenever it is set, also when it is the empty list, and returns
`DefaultLogLevels`, which is PANIC, FATAL, ERROR, when `LogLevels` is nil. -/
theorem Levels_configured_or_default (tracer : Option Nat) (timeout : time.Duration)
    (levels : List logger.Level) :
    ({ Tracer := tracer, LogLevels := some levels, FatalFlushTimeout := timeout } :
      Hook).Levels = levels ∧
    ({ Tracer := tracer, LogLevels := some [], FatalFlushTimeout := timeout } :
      Hook).Levels = [] ∧
    ({ Tracer := tracer, LogLevels := none, FatalFlushTimeout := timeout } :
      Hook).Levels = DefaultLogLevels ∧
    DefaultLogLevels = [logger.Level.PANIC, logger.Level.FATAL, logger.Level.ERROR] :=
  ⟨rfl, rfl, rfl, rfl⟩

/-- C5: for every record and every hook configuration, when the tracer
is not recording `Fire` returns nil and leaves the whole process as it
was: on no tracer is an event created or submitted or a flush performed. -/
theorem Fire_not_recording_no_effect (levelString : logger.Level → String) (h : Hook)
    (w : apm.World) (entry : logger.Entry)
    (hrec : w.Recording (h.tracer w) = false) :
    (h.Fire levelString w entry).2 = none ∧ (h.Fire levelString w entry).1 = w := by
  rw [Fire_of_not_recording levelString h w entry hrec]
  exact ⟨rfl, rfl⟩

theorem Fire_not_recording_no_effect_witness :
    sampleWorld.Recording (closedHook.tracer sampleWorld) = false ∧
    (closedHook.Fire levelName sampleWorld
        (sampleEntry logger.Level.FATAL [] [Value.err { text := "kablamo" }])).2 = none ∧
    (closedHook.Fire levelName sampleWorld
        (sampleEntry logger.Level.FATAL [] [Value.err { text := "kablamo" }])).1 =
      sampleWorld :=
  ⟨by decide, Fire_not_recording_no_effect levelName closedHook sampleWorld
    (sampleEntry logger.Level.FATAL [] [Value.err { text := "kablamo" }]) (by decide)⟩

/-- C1: for every record fired on a hook whose tracer is recording, if
the attached fields hold a trace identifier T under "trace.id" and a
transaction identifier X under "transaction.id", the submitted event has
TraceID T and TransactionID X; its ParentID is X when the fields hold no
span identifier under "span.id", and is S when they hold the span
identifier S there. -/
theorem Fire_ids_from_fields (levelString : logger.Level → String) (h : Hook)
    (w : apm.World) (entry : logger.Entry) (T : apm.TraceID) (X : apm.SpanID)
    (hrec : w.Recording (h.tracer w) = true)
    (hT : Holds entry.Config.Fields "trace.id" (Value.traceID T))
    (hX : Holds entry.Config.Fields "transaction.id" (Value.spanID X)) :
    ∃ ev, ((h.Fire levelString w entry).1.tracers (h.tracer w)).sent =
        (w.tracers (h.tracer w)).sent ++ [ev] ∧
      ev.TraceID = T ∧ ev.TransactionID = X ∧
      ((∀ S, ¬ Holds entry.Config.Fields "span.id" (Value.spanID S)) → ev.ParentID = X) ∧
      (∀ S, Holds entry.Config.Fields "span.id" (Value.spanID S) → ev.ParentID = S) := by
  refine ⟨reported levelString h entry, (Fire_sent levelString h w entry hrec).2, ?_, ?_, ?_, ?_⟩
  · simp [reported, FieldKeyTraceID, getFieldValue_of_holds h _ _ _ hT, Value.asTraceID]
  · simp [reported, FieldKeyTransactionID, getFieldValue_of_holds h _ _ _ hX, Value.asSpanID]
  · intro hS
    have hnone : (h.getFieldValue entry.Config.Fields "span.id").asSpanID = none := by
      cases hv : h.getFieldValue entry.Config.Fields "span.id" with
      | spanID S =>
        exact absurd (holds_of_getFieldValue h _ _ _ hv (by simp)) (hS S)
      | _ => rfl
    simp only [reported, FieldKeySpanID, FieldKeyTransactionID, hnone,
      getFieldValue_of_holds h _ _ _ hX]
    rfl
  · intro S hS
    simp [reported, FieldKeySpanID, getFieldValue_of_holds h _ _ _ hS, Value.asSpanID]

theorem Fire_ids_from_fields_witness :
    sampleWorld.Recording (defaultHook.tracer sampleWorld) = true ∧
    Holds (sampleEntry logger.Level.ERROR tracedFields []).Config.Fields "trace.id"
      (Value.traceID (apm.TraceID.ofNat 9)) ∧
    Holds (sampleEntry logger.Level.ERROR tracedFields []).Config.Fields "transaction.id"
      (Value.spanID (apm.SpanID.ofNat 7)) ∧
    ∃ ev, ((defaultHook.Fire levelName sampleWorld
          (sampleEntry logger.Level.ERROR tracedFields [])).1.tracers
            (defaultHook.tracer sampleWorld)).sent =
        (sampleWorld.tracers (defaultHook.tracer sampleWorld)).sent ++ [ev] ∧
      ev.TraceID = apm.TraceID.ofNat 9 ∧ ev.TransactionID = apm.SpanID.ofNat 7 ∧
      ((∀ S, ¬ Holds (sampleEntry logger.Level.ERROR tracedFields []).Config.Fields
          "span.id" (Value.spanID S)) → ev.ParentID = apm.SpanID.ofNat 7) ∧
      (∀ S, Holds (sampleEntry logger.Level.ERROR tracedFields []).Config.Fields
          "span.id" (Value.spanID S) → ev.ParentID = S) :=
  ⟨by decide, by decide, by decide,
   Fire_ids_from_fields levelName defaultHook sampleWorld
     (sampleEntry logger.Level.ERROR tracedFields []) (apm.TraceID.ofNat 9)
     (apm.SpanID.ofNat 7) (by decide) (by decide) (by decide)⟩

/-- C2: for every context carrying an active transaction, firing a
record whose attached fields are exactly `TraceContext ctx` on a recording
tracer submits an event whose TraceID is the transaction's trace id,
whose TransactionID is the transaction's own id, and whose ParentID is
the active span's id when the context carries a span and the
transaction's id when it does not. -/
theorem Fire_TraceContext_round_trip (levelString : logger.Level → String) (h : Hook)
    (w : apm.World) (entry : logger.Entry) (ctx : context.Context) (tx : apm.Transaction)
    (hrec : w.Recording (h.tracer w) = true)
    (htx : ctx.transaction = some tx)
    (hfields : entry.Config.Fields = TraceContext ctx) :
    ∃ ev, ((h.Fire levelString w entry).1.tracers (h.tracer w)).sent =
        (w.tracers (h.tracer w)).sent ++ [ev] ∧
      ev.TraceID = tx.TraceContext.Trace ∧
      ev.TransactionID = tx.TraceContext.Span ∧
      (∀ span, ctx.span = some span → ev.ParentID = span.TraceContext.Span) ∧
      (ctx.span = none → ev.ParentID = tx.TraceContext.Span) := by
  refine ⟨reported levelString h entry, (Fire_sent levelString h w entry hrec).2, ?_, ?_, ?_, ?_⟩
  · cases hs : ctx.span <;>
    simp [reported, hfields, TraceContext, apm.TransactionFromContext, apm.SpanFromContext,
      htx, hs, Hook.getFieldValue, FieldKeyTraceID, FieldKeyTransactionID, FieldKeySpanID,
      Value.asTraceID]
  · cases hs : ctx.span <;>
    simp [reported, hfields, TraceContext, apm.TransactionFromContext, apm.SpanFromContext,
      htx, hs, Hook.getFieldValue, FieldKeyTraceID, FieldKeyTransactionID, FieldKeySpanID,
      Value.asSpanID]
  · intro span hs
    simp [reported, hfields, TraceContext, apm.TransactionFromContext, apm.SpanFromContext,
      htx, hs, Hook.getFieldValue, FieldKeyTraceID, FieldKeyTransactionID, FieldKeySpanID,
      Value.asSpanID]
  · intro hs
    simp [reported, hfields, TraceContext, apm.TransactionFromContext, apm.SpanFromContext,
      htx, hs, Hook.getFieldValue, FieldKeyTraceID, FieldKeyTransactionID, FieldKeySpanID,
      Value.asSpanID]

theorem Fire_TraceContext_round_trip_witness :
    sampleWorld.Recording (defaultHook.tracer sampleWorld) = true ∧
    ctxTransactionSpan.transaction = some sampleTransaction ∧
    (sampleEntry logger.Level.ERROR (TraceContext ctxTransactionSpan) []).Config.Fields =
      TraceContext ctxTransactionSpan ∧
    ∃ ev, ((defaultHook.Fire levelName sampleWorld
          (sampleEntry logger.Level.ERROR (TraceContext ctxTransactionSpan) [])).1.tracers
            (defaultHook.tracer sampleWorld)).sent =
        (sampleWorld.tracers (defaultHook.tracer sampleWorld)).sent ++ [ev] ∧
      ev.TraceID = sampleTransaction.TraceContext.Trace ∧
      ev.TransactionID = sampleTransaction.TraceContext.Span ∧
      (∀ span, ctxTransactionSpan.span = some span →
        ev.ParentID = span.TraceContext.Span) ∧
      (ctxTransactionSpan.span = none →
        ev.ParentID = sampleTransaction.TraceContext.Span) :=
  ⟨by decide, rfl, rfl,
   Fire_TraceContext_round_trip levelName defaultHook sampleWorld
     (sampleEntry logger.Level.ERROR (TraceContext ctxTransactionSpan) [])
     ctxTransactionSpan sampleTransaction (by decide) rfl rfl⟩

theorem flushes_flushOps (h : Hook) (entry : logger.Entry) :
    (flushOps h entry).filterMap (fun o => match o with
      | apm.Op.flush d => some d
      | _ => none) =
    if entry.Level = logger.Level.FATAL ∧ 0 ≤ h.FatalFlushTimeout then
      [if 0 < h.FatalFlushTimeout then h.FatalFlushTimeout else DefaultFatalFlushTimeout]
    else [] := by
  unfold flushOps
  by_cases hc : entry.Level = logger.Level.FATAL ∧ 0 ≤ h.FatalFlushTimeout
  · rw [if_pos hc, if_pos hc]
    by_cases h0 : h.FatalFlushTimeout = 0
    · simp [h0]
    · have hpos : 0 < h.FatalFlushTimeout := lt_of_le_of_ne hc.2 (Ne.symm h0)
      simp [h0, hpos]
  · rw [if_neg hc, if_neg hc]
    rfl

theorem flushOps_eq (h : Hook) (entry : logger.Entry) :
    flushOps h entry =
    if entry.Level = logger.Level.FATAL ∧ 0 ≤ h.FatalFlushTimeout then
      [apm.Op.flush
        (if 0 < h.FatalFlushTimeout then h.FatalFlushTimeout else DefaultFatalFlushTimeout)]
    else [] := by
  unfold flushOps
  by_cases hc : entry.Level = logger.Level.FATAL ∧ 0 ≤ h.FatalFlushTimeout
  · rw [if_pos hc, if_pos hc]
    by_cases h0 : h.FatalFlushTimeout = 0
    · simp [h0]
    · have hpos : 0 < h.FatalFlushTimeout := lt_of_le_of_ne hc.2 (Ne.symm h0)
      simp [h0, hpos]
  · rw [if_neg hc, if_neg hc]

/-- C6: for every record fired on a recording tracer, `Fire` flushes if
and only if the level is FATAL and `FatalFlushTimeout` is not negative.
When it flushes it does so once, as the last call, after the event was
submitted, with deadline `FatalFlushTimeout` when that is positive and
`DefaultFatalFlushTimeout`, 5 seconds, when it is zero. Otherwise the
calls end with the submission of the event and no flush is performed. -/
theorem Fire_flush (levelString : logger.Level → String) (h : Hook)
    (w : apm.World) (entry : logger.Entry)
    (hrec : w.Recording (h.tracer w) = true) :
    (∃ r ev, ((h.Fire levelString w entry).1.tracers (h.tracer w)).ops =
      (w.tracers (h.tracer w)).ops ++ [apm.Op.newErrorLog r, apm.Op.send ev] ++
        (if entry.Level = logger.Level.FATAL ∧ 0 ≤ h.FatalFlushTimeout then
          [apm.Op.flush (if 0 < h.FatalFlushTimeout then h.FatalFlushTimeout
            else DefaultFatalFlushTimeout)]
         else [])) ∧
    ((h.Fire levelString w entry).1.tracers (h.tracer w)).flushes =
      (w.tracers (h.tracer w)).flushes ++
        (if entry.Level = logger.Level.FATAL ∧ 0 ≤ h.FatalFlushTimeout then
          [if 0 < h.FatalFlushTimeout then h.FatalFlushTimeout
            else DefaultFatalFlushTimeout]
         else []) ∧
    (∀ b, b ≠ h.tracer w → (h.Fire levelString w entry).1.tracers b = w.tracers b) ∧
    DefaultFatalFlushTimeout = 5 * 1000000000 := by
  rw [Fire_of_recording levelString h w entry hrec]
  refine ⟨⟨{ Message := entry.Message, Level := levelString entry.Level,
              Error := h.getError entry.Args }, reported levelString h entry, ?_⟩,
    ?_, ?_, rfl⟩
  · rw [apm.World.append_tracers_self, ← flushOps_eq]
    simp
  · simp only [apm.World.append_tracers_self, apm.Tracer.flushes, List.filterMap_append,
      List.filterMap_cons, flushes_flushOps]
  · intro b hb
    exact apm.World.append_tracers_other w _ b _ hb

theorem Fire_flush_witness :
    sampleWorld.Recording (defaultHook.tracer sampleWorld) = true ∧
    ((∃ r ev, ((defaultHook.Fire levelName sampleWorld
          (sampleEntry logger.Level.FATAL [] [])).1.tracers
            (defaultHook.tracer sampleWorld)).ops =
      (sampleWorld.tracers (defaultHook.tracer sampleWorld)).ops ++
        [apm.Op.newErrorLog r, apm.Op.send ev] ++
        (if (sampleEntry logger.Level.FATAL [] []).Level = logger.Level.FATAL ∧
            0 ≤ defaultHook.FatalFlushTimeout then
          [apm.Op.flush (if 0 < defaultHook.FatalFlushTimeout
            then defaultHook.FatalFlushTimeout else DefaultFatalFlushTimeout)]
         else [])) ∧
    ((defaultHook.Fire levelName sampleWorld
        (sampleEntry logger.Level.FATAL [] [])).1.tracers
          (defaultHook.tracer sampleWorld)).flushes =
      (sampleWorld.tracers (defaultHook.tracer sampleWorld)).flushes ++
        (if (sampleEntry logger.Level.FATAL [] []).Level = logger.Level.FATAL ∧
            0 ≤ defaultHook.FatalFlushTimeout then
          [if 0 < defaultHook.FatalFlushTimeout then defaultHook.FatalFlushTimeout
            else DefaultFatalFlushTimeout]
         else []) ∧
    (∀ b, b ≠ defaultHook.tracer sampleWorld →
      (defaultHook.Fire levelName sampleWorld
        (sampleEntry logger.Level.FATAL [] [])).1.tracers b = sampleWorld.tracers b) ∧
    DefaultFatalFlushTimeout = 5 * 1000000000) :=
  ⟨by decide, Fire_flush levelName defaultHook sampleWorld
    (sampleEntry logger.Level.FATAL [] []) (by decide)⟩

theorem truncateString_of_length_le (s : String)
    (hlen : s.length ≤ apm.stringLengthLimit) : apm.truncateString s = s := by
  cases s with
  | mk l =>
    simp only [String.length] at hlen
    simp only [apm.truncateString, List.take_of_length_le hlen]

theorem truncateString_eq_empty_iff (s : String) : apm.truncateString s = "" ↔ s = "" := by
  cases s with
  | mk l =>
    rw [String.ext_iff, String.ext_iff]
    show l.take apm.stringLengthLimit = [] ↔ l = []
    simp [List.take_eq_nil_iff, apm.stringLengthLimit]

theorem storedLog_message (r : apm.ErrorLogRecord) :
    (apm.storedLog r).Message =
      if r.Message = "" then "[EMPTY]" else apm.truncateString r.Message := by
  simp only [apm.storedLog]
  by_cases hm : r.Message = ""
  · rw [if_pos hm, if_pos ((truncateString_eq_empty_iff r.Message).2 hm)]
  · rw [if_neg hm, if_neg (fun hc => hm ((truncateString_eq_empty_iff r.Message).1 hc))]

/-- C8, as stated, fails: on the recording default tracer an ERROR record
with the empty message yields an event whose message is "[EMPTY]", and one
with a message of 1025 characters yields an event whose message has 1024
characters; in neither case is it the message of the record. -/
theorem Fire_message_verbatim_counterexample :
    sampleWorld.Recording (defaultHook.tracer sampleWorld) = true ∧
    (∃ ev, ((defaultHook.Fire levelName sampleWorld (messageEntry "")).1.tracers
          (defaultHook.tracer sampleWorld)).sent =
        (sampleWorld.tracers (defaultHook.tracer sampleWorld)).sent ++ [ev] ∧
      ev.log.Message = "[EMPTY]" ∧ ev.log.Message ≠ (messageEntry "").Message) ∧
    (∃ ev, ((defaultHook.Fire levelName sampleWorld (messageEntry longMessage)).1.tracers
          (defaultHook.tracer sampleWorld)).sent =
        (sampleWorld.tracers (defaultHook.tracer sampleWorld)).sent ++ [ev] ∧
      ev.log.Message.length = 1024 ∧ (messageEntry longMessage).Message.length = 1025 ∧
      ev.log.Message ≠ (messageEntry longMessage).Message) := by
  have hrec : sampleWorld.Recording (defaultHook.tracer sampleWorld) = true := by decide
  refine ⟨hrec, ⟨reported levelName defaultHook (messageEntry ""),
    (Fire_sent levelName defaultHook sampleWorld _ hrec).2, by decide, by decide⟩,
    ⟨reported levelName defaultHook (messageEntry longMessage),
    (Fire_sent levelName defaultHook sampleWorld _ hrec).2, ?_⟩⟩
  have hlong : (messageEntry longMessage).Message.length = 1025 := by
    simp only [messageEntry, longMessage, String.length, List.length_replicate]
  have hcut : (reported levelName defaultHook (messageEntry longMessage)).log.Message.length =
      1024 := by
    have hne : ¬ longMessage = "" := by
      intro hc
      have hl := congrArg String.length hc
      simp only [longMessage, String.length, List.length_replicate, List.length_nil] at hl
      exact absurd hl (by decide)
    simp only [reported, storedLog_message, messageEntry, hne, if_false]
    simp only [apm.truncateString, apm.stringLengthLimit, longMessage, String.length,
      List.take_replicate, List.length_replicate]
    decide
  refine ⟨hcut, hlong, ?_⟩
  intro hc
  rw [hc, hlong] at hcut
  exact absurd hcut (by decide)

/-- C8, amended: for every record fired on a recording tracer, `Fire`
returns nil and submits exactly one event, to its own tracer only. The
message of the event is "[EMPTY]" when the message of the record is
empty, and otherwise the message of the record cut to its first 1024
characters, so the message itself when it is not empty and no longer than
that. Its severity label is the string form of the level, cut likewise.
Its Handled flag is true, its timestamp the time of the record, and its
cause the first of the raw arguments, in argument order, that is an error,
later ones being ignored, or no cause when none is an error. -/
theorem Fire_submits_one_event (levelString : logger.Level → String) (h : Hook)
    (w : apm.World) (entry : logger.Entry)
    (hrec : w.Recording (h.tracer w) = true) :
    (h.Fire levelString w entry).2 = none ∧
    (∀ b, b ≠ h.tracer w → (h.Fire levelString w entry).1.tracers b = w.tracers b) ∧
    ∃ ev, ((h.Fire levelString w entry).1.tracers (h.tracer w)).sent =
        (w.tracers (h.tracer w)).sent ++ [ev] ∧
      ev.log.Message =
        (if entry.Message = "" then "[EMPTY]" else String.mk (entry.Message.data.take 1024)) ∧
      (entry.Message ≠ "" → entry.Message.length ≤ 1024 →
        ev.log.Message = entry.Message) ∧
      ev.log.Level = String.mk ((levelString entry.Level).data.take 1024) ∧
      ((levelString entry.Level).length ≤ 1024 → ev.log.Level = levelString entry.Level) ∧
      ev.Handled = true ∧
      ev.Timestamp = entry.Time ∧
      ev.log.Error = (entry.Args.filterMap Value.asError).head? ∧
      (∀ before e after, entry.Args = before ++ Value.err e :: after →
        (∀ v, v ∈ before → v.asError = none) → ev.log.Error = some e) ∧
      ((∀ e, Value.err e ∉ entry.Args) → ev.log.Error = none) := by
  have hmsg : (reported levelString h entry).log.Message =
      (if entry.Message = "" then "[EMPTY]"
        else String.mk (entry.Message.data.take 1024)) := by
    simp only [reported, storedLog_message]
    rfl
  refine ⟨(Fire_sent levelString h w entry hrec).1, ?_, reported levelString h entry,
    (Fire_sent levelString h w entry hrec).2, hmsg, ?_, rfl, ?_, rfl, rfl, ?_, ?_, ?_⟩
  · intro b hb
    rw [Fire_of_recording levelString h w entry hrec]
    exact apm.World.append_tracers_other w _ b _ hb
  · intro hne hlen
    rw [hmsg, if_neg hne]
    exact truncateString_of_length_le entry.Message hlen
  · intro hlen
    exact truncateString_of_length_le (levelString entry.Level) hlen
  · exact getError_eq_head h entry.Args
  · intro before e after hargs hbefore
    have hnil : before.filterMap Value.asError = [] := by
      rw [List.filterMap_eq_nil_iff]
      exact hbefore
    show h.getError entry.Args = some e
    rw [getError_eq_head, hargs, List.filterMap_append, hnil]
    simp [Value.asError]
  · intro hnone
    exact (getError_eq_none_iff h entry.Args).2 hnone

theorem Fire_submits_one_event_witness :
    sampleWorld.Recording (defaultHook.tracer sampleWorld) = true ∧
    ((defaultHook.Fire levelName sampleWorld (sampleEntry logger.Level.ERROR []
        [Value.str "nope", Value.err { text := "kablamo" },
         Value.err { text := "later" }])).2 = none ∧
    (∀ b, b ≠ defaultHook.tracer sampleWorld →
      (defaultHook.Fire levelName sampleWorld (sampleEntry logger.Level.ERROR []
        [Value.str "nope", Value.err { text := "kablamo" },
         Value.err { text := "later" }])).1.tracers b = sampleWorld.tracers b) ∧
    ∃ ev, ((defaultHook.Fire levelName sampleWorld (sampleEntry logger.Level.ERROR []
          [Value.str "nope", Value.err { text := "kablamo" },
           Value.err { text := "later" }])).1.tracers
            (defaultHook.tracer sampleWorld)).sent =
        (sampleWorld.tracers (defaultHook.tracer sampleWorld)).sent ++ [ev] ∧
      ev.log.Message =
        (if (sampleEntry logger.Level.ERROR []
            [Value.str "nope", Value.err { text := "kablamo" },
             Value.err { text := "later" }]).Message = "" then "[EMPTY]"
         else String.mk ((sampleEntry logger.Level.ERROR []
            [Value.str "nope", Value.err { text := "kablamo" },
             Value.err { text := "later" }]).Message.data.take 1024)) ∧
      ((sampleEntry logger.Level.ERROR []
          [Value.str "nope", Value.err { text := "kablamo" },
           Value.err { text := "later" }]).Message ≠ "" →
        (sampleEntry logger.Level.ERROR []
          [Value.str "nope", Value.err { text := "kablamo" },
           Value.err { text := "later" }]).Message.length ≤ 1024 →
        ev.log.Message = (sampleEntry logger.Level.ERROR []
          [Value.str "nope", Value.err { text := "kablamo" },
           Value.err { text := "later" }]).Message) ∧
      ev.log.Level = String.mk ((levelName (sampleEntry logger.Level.ERROR []
        [Value.str "nope", Value.err { text := "kablamo" },
         Value.err { text := "later" }]).Level).data.take 1024) ∧
      ((levelName (sampleEntry logger.Level.ERROR []
          [Value.str "nope", Value.err { text := "kablamo" },
           Value.err { text := "later" }]).Level).length ≤ 1024 →
        ev.log.Level = levelName (sampleEntry logger.Level.ERROR []
          [Value.str "nope", Value.err { text := "kablamo" },
           Value.err { text := "later" }]).Level) ∧
      ev.Handled = true ∧
      ev.Timestamp = (sampleEntry logger.Level.ERROR []
        [Value.str "nope", Value.err { text := "kablamo" },
         Value.err { text := "later" }]).Time ∧
      ev.log.Error = ((sampleEntry logger.Level.ERROR []
        [Value.str "nope", Value.err { text := "kablamo" },
         Value.err { text := "later" }]).Args.filterMap Value.asError).head? ∧
      (∀ before e after, (sampleEntry logger.Level.ERROR []
        [Value.str "nope", Value.err { text := "kablamo" },
         Value.err { text := "later" }]).Args = before ++ Value.err e :: after →
        (∀ v, v ∈ before → v.asError = none) → ev.log.Error = some e) ∧
      ((∀ e, Value.err e ∉ (sampleEntry logger.Level.ERROR []
        [Value.str "nope", Value.err { text := "kablamo" },
         Value.err { text := "later" }]).Args) → ev.log.Error = none)) :=
  ⟨by decide, Fire_submits_one_event levelName defaultHook sampleWorld
    (sampleEntry logger.Level.ERROR []
      [Value.str "nope", Value.err { text := "kablamo" }, Value.err { text := "later" }])
    (by decide)⟩

/-- C10: for every record fired on a recording tracer, the number of
frames `Fire` skips when capturing the log stack trace is 1 when an error
value is found among the raw arguments and 2 when none is found. -/
theorem Fire_stacktrace_skip (levelString : logger.Level → String) (h : Hook)
    (w : apm.World) (entry : logger.Entry)
    (hrec : w.Recording (h.tracer w) = true) :
    ∃ ev, ((h.Fire levelString w entry).1.tracers (h.tracer w)).sent =
        (w.tracers (h.tracer w)).sent ++ [ev] ∧
      ((∃ e, Value.err e ∈ entry.Args) → ev.stacktraceSkip = some 1) ∧
      ((∀ e, Value.err e ∉ entry.Args) → ev.stacktraceSkip = some 2) := by
  refine ⟨reported levelString h entry, (Fire_sent levelString h w entry hrec).2, ?_, ?_⟩
  · intro hex
    have hne : h.getError entry.Args ≠ none := by
      intro hc
      obtain ⟨e, he⟩ := hex
      exact (getError_eq_none_iff h entry.Args).1 hc e he
    simp [reported, hne]
  · intro hall
    simp [reported, (getError_eq_none_iff h entry.Args).2 hall]

theorem Fire_stacktrace_skip_witness :
    sampleWorld.Recording (defaultHook.tracer sampleWorld) = true ∧
    ∃ ev, ((defaultHook.Fire levelName sampleWorld (sampleEntry logger.Level.ERROR []
          [Value.err { text := "kablamo" }])).1.tracers
            (defaultHook.tracer sampleWorld)).sent =
        (sampleWorld.tracers (defaultHook.tracer sampleWorld)).sent ++ [ev] ∧
      ((∃ e, Value.err e ∈ (sampleEntry logger.Level.ERROR []
          [Value.err { text := "kablamo" }]).Args) → ev.stacktraceSkip = some 1) ∧
      ((∀ e, Value.err e ∉ (sampleEntry logger.Level.ERROR []
          [Value.err { text := "kablamo" }]).Args) → ev.stacktraceSkip = some 2) :=
  ⟨by decide, Fire_stacktrace_skip levelName defaultHook sampleWorld
    (sampleEntry logger.Level.ERROR [] [Value.err { text := "kablamo" }]) (by decide)⟩

theorem mem_of_getFieldValue (h : Hook) (fields : List logger.Field) (k : String)
    (v : Value) (hv : h.getFieldValue fields k = v) (hnil : v ≠ Value.nil) :
    ({ Key := k, Value := v } : logger.Field) ∈ fields :=
  List.mem_of_find?_eq_some (holds_of_getFieldValue h fields k v hv hnil)

theorem mem_of_asTraceID (h : Hook) (fields : List logger.Field) (k : String)
    (t : apm.TraceID) (ht : (h.getFieldValue fields k).asTraceID = some t) :
    ({ Key := k, Value := Value.traceID t } : logger.Field) ∈ fields := by
  cases hv : h.getFieldValue fields k with
  | traceID u =>
    rw [hv] at ht
    simp only [Value.asTraceID, Option.some.injEq] at ht
    subst ht
    exact mem_of_getFieldValue h fields k _ hv (by simp)
  | _ => rw [hv] at ht; simp [Value.asTraceID] at ht

theorem mem_of_asSpanID (h : Hook) (fields : List logger.Field) (k : String)
    (s : apm.SpanID) (hs : (h.getFieldValue fields k).asSpanID = some s) :
    ({ Key := k, Value := Value.spanID s } : logger.Field) ∈ fields := by
  cases hv : h.getFieldValue fields k with
  | spanID u =>
    rw [hv] at hs
    simp only [Value.asSpanID, Option.some.injEq] at hs
    subst hs
    exact mem_of_getFieldValue h fields k _ hv (by simp)
  | _ => rw [hv] at hs; simp [Value.asSpanID] at hs

/-- C9, as stated, fails: on the recording default tracer a record whose
only field is "transaction.id" holding the span identifier 7 yields an
event whose ParentID is 7, not zero, although no attached field has the
key "span.id". -/
theorem Fire_parent_only_from_span_counterexample :
    sampleWorld.Recording (defaultHook.tracer sampleWorld) = true ∧
    ¬ (∀ ev, ((defaultHook.Fire levelName sampleWorld (sampleEntry logger.Level.ERROR
          [{ Key := "transaction.id", Value := Value.spanID (apm.SpanID.ofNat 7) }]
          [])).1.tracers (defaultHook.tracer sampleWorld)).sent =
        (sampleWorld.tracers (defaultHook.tracer sampleWorld)).sent ++ [ev] →
      ev.ParentID ≠ apm.SpanID.zero →
      ∃ f, f ∈ (sampleEntry logger.Level.ERROR
          [{ Key := "transaction.id", Value := Value.spanID (apm.SpanID.ofNat 7) }]
          []).Config.Fields ∧ f.Key = "span.id" ∧ f.Value = Value.spanID ev.ParentID) := by
  refine ⟨by decide, ?_⟩
  intro hall
  obtain ⟨f, hf, hk, _⟩ := hall
    (reported levelName defaultHook (sampleEntry logger.Level.ERROR
      [{ Key := "transaction.id", Value := Value.spanID (apm.SpanID.ofNat 7) }] []))
    (by decide) (by decide)
  simp only [sampleEntry, List.mem_singleton] at hf
  subst hf
  exact absurd hk (by decide)

/-- C9, amended: for every record fired on a recording tracer, the
TraceID of the event is set only from an attached field with key
"trace.id" holding a trace identifier, its TransactionID only from one
with key "transaction.id" holding a span identifier, and its ParentID
only from one with key "span.id" or, the transaction being the default
parent, "transaction.id" holding a span identifier; otherwise the
identifier stays zero. In particular all three are zero for a record with
none of the reserved keys among its fields, and for one whose reserved
keys hold values of another type. -/
theorem Fire_ids_only_from_fields (levelString : logger.Level → String) (h : Hook)
    (w : apm.World) (entry : logger.Entry)
    (hrec : w.Recording (h.tracer w) = true) :
    ∃ ev, ((h.Fire levelString w entry).1.tracers (h.tracer w)).sent =
        (w.tracers (h.tracer w)).sent ++ [ev] ∧
      (ev.TraceID ≠ apm.TraceID.zero →
        ({ Key := "trace.id", Value := Value.traceID ev.TraceID } : logger.Field) ∈
          entry.Config.Fields) ∧
      (ev.TransactionID ≠ apm.SpanID.zero →
        ({ Key := "transaction.id", Value := Value.spanID ev.TransactionID } :
          logger.Field) ∈ entry.Config.Fields) ∧
      (ev.ParentID ≠ apm.SpanID.zero →
        ({ Key := "span.id", Value := Value.spanID ev.ParentID } : logger.Field) ∈
          entry.Config.Fields ∨
        ({ Key := "transaction.id", Value := Value.spanID ev.ParentID } : logger.Field) ∈
          entry.Config.Fields) ∧
      ((∀ f, f ∈ entry.Config.Fields →
          f.Key ≠ "trace.id" ∧ f.Key ≠ "transaction.id" ∧ f.Key ≠ "span.id") →
        ev.TraceID = apm.TraceID.zero ∧ ev.TransactionID = apm.SpanID.zero ∧
          ev.ParentID = apm.SpanID.zero) ∧
      ((∀ f, f ∈ entry.Config.Fields →
          (f.Key = "trace.id" → f.Value.asTraceID = none) ∧
          (f.Key = "transaction.id" → f.Value.asSpanID = none) ∧
          (f.Key = "span.id" → f.Value.asSpanID = none)) →
        ev.TraceID = apm.TraceID.zero ∧ ev.TransactionID = apm.SpanID.zero ∧
          ev.ParentID = apm.SpanID.zero) := by
  have hA := mem_of_asTraceID h entry.Config.Fields "trace.id"
  have hB := mem_of_asSpanID h entry.Config.Fields "transaction.id"
  have hC := mem_of_asSpanID h entry.Config.Fields "span.id"
  have hzero : (∀ f, f ∈ entry.Config.Fields →
        (f.Key = "trace.id" → f.Value.asTraceID = none) ∧
        (f.Key = "transaction.id" → f.Value.asSpanID = none) ∧
        (f.Key = "span.id" → f.Value.asSpanID = none)) →
      (reported levelString h entry).TraceID = apm.TraceID.zero ∧
      (reported levelString h entry).TransactionID = apm.SpanID.zero ∧
      (reported levelString h entry).ParentID = apm.SpanID.zero := by
    intro hall
    have hA0 : (h.getFieldValue entry.Config.Fields "trace.id").asTraceID = none := by
      cases hv : (h.getFieldValue entry.Config.Fields "trace.id").asTraceID with
      | none => rfl
      | some t => exact absurd ((hall _ (hA t hv)).1 rfl) (by simp [Value.asTraceID])
    have hB0 : (h.getFieldValue entry.Config.Fields "transaction.id").asSpanID = none := by
      cases hv : (h.getFieldValue entry.Config.Fields "transaction.id").asSpanID with
      | none => rfl
      | some t => exact absurd ((hall _ (hB t hv)).2.1 rfl) (by simp [Value.asSpanID])
    have hC0 : (h.getFieldValue entry.Config.Fields "span.id").asSpanID = none := by
      cases hv : (h.getFieldValue entry.Config.Fields "span.id").asSpanID with
      | none => rfl
      | some t => exact absurd ((hall _ (hC t hv)).2.2 rfl) (by simp [Value.asSpanID])
    simp only [reported, FieldKeyTraceID, FieldKeyTransactionID, FieldKeySpanID, hA0, hB0,
      hC0, Option.getD_none, and_self]
  refine ⟨reported levelString h entry, (Fire_sent levelString h w entry hrec).2,
    ?_, ?_, ?_, ?_, hzero⟩
  · intro hne
    cases hv : (h.getFieldValue entry.Config.Fields "trace.id").asTraceID with
    | none =>
      exact absurd (by simp only [reported, FieldKeyTraceID, hv, Option.getD_none]) hne
    | some t =>
      have ht : (reported levelString h entry).TraceID = t := by
        simp only [reported, FieldKeyTraceID, hv, Option.getD_some]
      rw [ht]
      exact hA t hv
  · intro hne
    cases hv : (h.getFieldValue entry.Config.Fields "transaction.id").asSpanID with
    | none =>
      exact absurd (by simp only [reported, FieldKeyTransactionID, hv, Option.getD_none]) hne
    | some t =>
      have ht : (reported levelString h entry).TransactionID = t := by
        simp only [reported, FieldKeyTransactionID, hv, Option.getD_some]
      rw [ht]
      exact hB t hv
  · intro hne
    cases hs : (h.getFieldValue entry.Config.Fields "span.id").asSpanID with
    | some s =>
      have ht : (reported levelString h entry).ParentID = s := by
        simp only [reported, FieldKeySpanID, hs]
      rw [ht]
      exact Or.inl (hC s hs)
    | none =>
      cases hv : (h.getFieldValue entry.Config.Fields "transaction.id").asSpanID with
      | none =>
        exact absurd (by simp only [reported, FieldKeySpanID, FieldKeyTransactionID, hs, hv,
          Option.getD_none]) hne
      | some t =>
        have ht : (reported levelString h entry).ParentID = t := by
          simp only [reported, FieldKeySpanID, FieldKeyTransactionID, hs, hv,
            Option.getD_some]
        rw [ht]
        exact Or.inr (hB t hv)
  · intro hkeys
    refine hzero ?_
    intro f hf
    exact ⟨fun hk => absurd hk (hkeys f hf).1, fun hk => absurd hk (hkeys f hf).2.1,
      fun hk => absurd hk (hkeys f hf).2.2⟩

theorem Fire_ids_only_from_fields_witness :
    sampleWorld.Recording (defaultHook.tracer sampleWorld) = true ∧
    ∃ ev, ((defaultHook.Fire levelName sampleWorld (sampleEntry logger.Level.ERROR
          [{ Key := "foo", Value := Value.str "bar" }] [])).1.tracers
            (defaultHook.tracer sampleWorld)).sent =
        (sampleWorld.tracers (defaultHook.tracer sampleWorld)).sent ++ [ev] ∧
      (ev.TraceID ≠ apm.TraceID.zero →
        ({ Key := "trace.id", Value := Value.traceID ev.TraceID } : logger.Field) ∈
          (sampleEntry logger.Level.ERROR
            [{ Key := "foo", Value := Value.str "bar" }] []).Config.Fields) ∧
      (ev.TransactionID ≠ apm.SpanID.zero →
        ({ Key := "transaction.id", Value := Value.spanID ev.TransactionID } :
          logger.Field) ∈ (sampleEntry logger.Level.ERROR
            [{ Key := "foo", Value := Value.str "bar" }] []).Config.Fields) ∧
      (ev.ParentID ≠ apm.SpanID.zero →
        ({ Key := "span.id", Value := Value.spanID ev.ParentID } : logger.Field) ∈
          (sampleEntry logger.Level.ERROR
            [{ Key := "foo", Value := Value.str "bar" }] []).Config.Fields ∨
        ({ Key := "transaction.id", Value := Value.spanID ev.ParentID } : logger.Field) ∈
          (sampleEntry logger.Level.ERROR
            [{ Key := "foo", Value := Value.str "bar" }] []).Config.Fields) ∧
      ((∀ f, f ∈ (sampleEntry logger.Level.ERROR
            [{ Key := "foo", Value := Value.str "bar" }] []).Config.Fields →
          f.Key ≠ "trace.id" ∧ f.Key ≠ "transaction.id" ∧ f.Key ≠ "span.id") →
        ev.TraceID = apm.TraceID.zero ∧ ev.TransactionID = apm.SpanID.zero ∧
          ev.ParentID = apm.SpanID.zero) ∧
      ((∀ f, f ∈ (sampleEntry logger.Level.ERROR
            [{ Key := "foo", Value := Value.str "bar" }] []).Config.Fields →
          (f.Key = "trace.id" → f.Value.asTraceID = none) ∧
          (f.Key = "transaction.id" → f.Value.asSpanID = none) ∧
          (f.Key = "span.id" → f.Value.asSpanID = none)) →
        ev.TraceID = apm.TraceID.zero ∧ ev.TransactionID = apm.SpanID.zero ∧
          ev.ParentID = apm.SpanID.zero) :=
  ⟨by decide, Fire_ids_only_from_fields levelName defaultHook sampleWorld
    (sampleEntry logger.Level.ERROR [{ Key := "foo", Value := Value.str "bar" }] [])
    (by decide)⟩

end apmgologger
